import Mathlib

/-!
Verification of the diagnostic-orchestration core of the `medagent`
repository (`src/core/orchestrator.py`, `src/domain/models.py`,
`src/domain/exceptions/medical.py`).

The orchestrator is embedded shallowly: every external effect is made
explicit.  Console reads (`console.input`) consume a scripted list of input
strings; each worker invocation (`Runner.run_async`) consumes one scripted
`WorkerResult` (either the final response text of the collaborator or the message of a raised
exception).  Running out of script models an interaction that
blocks forever, hence the `Option` results.  An `Env.calls` trace records
every worker invocation as a `(agent_name, task)` pair so that theorems can
speak about which workers were invoked and with what task.

Python string operations used by the orchestrator are modelled on
`List Char`:
* `s.split(sep)[1]` (the segment between the first and second occurrence of
  `sep`, or everything after the first occurrence when it occurs only once)
  is `pySplitGet1`;
* `sep in s` is `containsSub`;
* `str.strip()` is `pyStrip` (ASCII whitespace; the Unicode space
  characters Python additionally strips never occur in the protocol
  markers or sentinels the claims are about);
* `str.lower()` is `pyLower` (ASCII case folding, for the same reason);
* `int(s)` is `pyInt` (optional sign and decimal digits; the digit
  grouping underscores of Python are not modelled — the validated range is enforced
  after parsing, so they cannot affect any validated value).
-/

namespace Medagent

/-- Holds when `m` is a prefix of `l`. -/
def isPrefixList : List Char → List Char → Bool
  | [], _ => true
  | _ :: _, [] => false
  | a :: as, b :: bs => a == b && isPrefixList as bs

/-- Split at the first occurrence of marker `m`: returns the text before the
first occurrence and the text after it, or `none` when `m` does not occur. -/
def splitFirst (m : List Char) : List Char → Option (List Char × List Char)
  | [] => none
  | c :: rest =>
    if isPrefixList m (c :: rest) then some ([], (c :: rest).drop m.length)
    else
      match splitFirst m rest with
      | none => none
      | some (b, a) => some (c :: b, a)

/-- Python `m in s` for a non-empty marker `m`. -/
def containsSub (m s : String) : Bool :=
  (splitFirst m.data s.data).isSome

/-- Python `s.split(m)[1]`: the segment between the first and second
occurrence of `m` (everything after the first occurrence when there is no
second one).  Only used by the orchestrator under an `m in s` guard; returns
`""` when the marker is absent. -/
def pySplitGet1 (m s : String) : String :=
  match splitFirst m.data s.data with
  | none => ""
  | some (_, after) =>
    match splitFirst m.data after with
    | none => String.mk after
    | some (b, _) => String.mk b

/-- The ASCII whitespace characters stripped by Python `str.strip()`. -/
def pyIsSpace (c : Char) : Bool :=
  c == ' ' || c == '\t' || c == '\n' || c == '\r' ||
  c == Char.ofNat 11 || c == Char.ofNat 12

/-- Python `s.strip()`. -/
def pyStrip (s : String) : String :=
  String.mk (((s.data.dropWhile pyIsSpace).reverse.dropWhile pyIsSpace).reverse)

/-- ASCII lower-casing of one character. -/
def lowerChar (c : Char) : Char :=
  if 65 ≤ c.toNat && c.toNat ≤ 90 then Char.ofNat (c.toNat + 32) else c

/-- Python `s.lower()` (ASCII). -/
def pyLower (s : String) : String :=
  String.mk (s.data.map lowerChar)

/-- Decimal value of a digit run; `none` on a non-digit. -/
def digitsValAux : List Char → Nat → Option Nat
  | [], acc => some acc
  | c :: cs, acc =>
    if c.isDigit then digitsValAux cs (acc * 10 + (c.toNat - 48)) else none

/-- Python `int(s)` on the strings the intake feeds it: optional sign and a
non-empty run of decimal digits, with surrounding whitespace stripped;
`none` models a raised `ValueError`. -/
def pyInt (s : String) : Option Int :=
  match (pyStrip s).data with
  | [] => none
  | '-' :: rest =>
    if rest = [] then none else (digitsValAux rest 0).map fun n => -(n : Int)
  | '+' :: rest =>
    if rest = [] then none else (digitsValAux rest 0).map fun n => (n : Int)
  | l => (digitsValAux l 0).map fun n => (n : Int)

/-- Python truthiness of an optional string (`None` and `""` are falsy);
the orchestrator tests `if not case.final_diagnosis:`. -/
def pyFalsyOptStr : Option String → Bool
  | none => true
  | some s => s == ""

/-- One audit-trail entry, the `(source, text)` pair passed to `PatientCase.add_log`.
The repository renders the entry as the string
`"[<timestamp>] <SOURCE_UPPERCASED>: <text>"`; the wall-clock timestamp and
the upper-casing are presentation of the same data and are not modelled. -/
structure LogEntry where
  source : String
  text : String
deriving DecidableEq, Repr

/-- The `PatientCase` aggregate (`src/domain/models.py`), restricted to the
fields the orchestrator core reads or writes.  `case_id`, `created_at`,
`past_medical_history`, `vitals`, `lab_results` and `imaging_reports` are
never written by the orchestrator and are read only inside the rendered
prompt context, which the scripted collaborator model does not inspect. -/
structure PatientCase where
  chief_complaint : String
  history_present_illness : String := ""
  differential_diagnosis : List String := []
  research_notes : List String := []
  final_diagnosis : Option String := none
  action_log : List LogEntry := []
  age : Option Int := none
  gender : Option String := none
deriving DecidableEq, Repr

/-- Model of `PatientCase.add_log`. -/
def addLog (c : PatientCase) (agent action : String) : PatientCase :=
  { c with action_log := c.action_log ++ [⟨agent, action⟩] }

/-- Outcome of one scripted worker invocation: the final response text, or
the message of an exception raised while invoking the worker. -/
inductive WorkerResult where
  | ok (text : String)
  | err (msg : String)
deriving DecidableEq, Repr

/-- The scripted external world: pending console inputs, pending worker
results, and the trace of worker invocations performed so far. -/
structure Env where
  inputs : List String
  responses : List WorkerResult
  calls : List (String × String) := []
deriving DecidableEq, Repr

/-- Model of `console.input(...)`: consume the next scripted input; an empty script
models a user who never types (the program blocks forever). -/
def readInput (env : Env) : Option (String × Env) :=
  match env.inputs with
  | [] => none
  | s :: rest => some (s, { env with inputs := rest })

/-- Model of `MedicalOrchestrator._invoke_agent`.  Records the `(agent, task)` call,
then: an empty final response returns the sentinel
`"ERROR: No response from agent."` without logging; a non-empty response is
appended to the audit log and returned; a raised exception is caught and
returned as `"SYSTEM ERROR: <message>"` without logging. -/
def invokeAgent (name task : String) (c : PatientCase) (env : Env) :
    Option (String × PatientCase × Env) :=
  match env.responses with
  | [] => none
  | r :: rest =>
    let env1 : Env :=
      { env with responses := rest, calls := env.calls ++ [(name, task)] }
    match r with
    | .ok text =>
      if text = "" then some ("ERROR: No response from agent.", c, env1)
      else some (text, addLog c name text, env1)
    | .err msg => some ("SYSTEM ERROR: " ++ msg, c, env1)

/-- Model of `MedicalOrchestrator.collect_demographics`, age half: keep prompting
until the (stripped) input parses as an integer in the open interval
`(0, 200)`.  `none` models a user who never supplies a valid age. -/
def collectAge : List String → Option (Int × List String)
  | [] => none
  | s :: rest =>
    match pyInt (pyStrip s) with
    | none => collectAge rest
    | some age =>
      if 0 < age ∧ age < 200 then some (age, rest) else collectAge rest

/-- Model of `MedicalOrchestrator.collect_demographics`, sex half: keep prompting
until the stripped, lower-cased input is one of `male`/`m`/`female`/`f`,
normalising to `"Male"`/`"Female"`. -/
def collectSex : List String → Option (String × List String)
  | [] => none
  | s :: rest =>
    let sexInput := pyLower (pyStrip s)
    if sexInput = "male" ∨ sexInput = "m" then some ("Male", rest)
    else if sexInput = "female" ∨ sexInput = "f" then some ("Female", rest)
    else collectSex rest

/-- Model of `MedicalOrchestrator.collect_demographics`: age then sex. -/
def collectDemographics (inputs : List String) :
    Option (Int × String × List String) :=
  match collectAge inputs with
  | none => none
  | some (age, rest) =>
    match collectSex rest with
    | none => none
    | some (sex, rest2) => some (age, sex, rest2)

/-- Result of the triage phase: the `while` loop of
`run_diagnostic_loop` either completes (possibly by exhausting its five
attempts), raises `EmergencyAbortException reason`, or blocks on script
exhaustion. -/
inductive TriageResult where
  | blocked
  | emergency (reason : String) (c : PatientCase) (env : Env)
  | done (c : PatientCase) (env : Env)
deriving DecidableEq, Repr

/-- The triage `while` loop of `run_diagnostic_loop` (lines 110–160),
recursing on the remaining attempts (`max_triage_attempts = 5`; note the
attempt counter is incremented before the input is read, so an empty input
consumes an attempt).  `complaint` is the accumulated complaint text,
`none` before the first non-empty input. -/
def triagePhase : Nat → Option String → PatientCase → Env → TriageResult
  | 0, _, c, env => .done c env
  | n + 1, complaint, c, env =>
    match readInput env with
    | none => .blocked
    | some (raw, env1) =>
      let complaint_input := pyStrip raw
      if complaint_input = "" then triagePhase n complaint c env1
      else
        let complaint2 :=
          match complaint with
          | some prev => prev ++ " " ++ complaint_input
          | none => complaint_input
        let c1 := { c with chief_complaint := complaint2 }
        match invokeAgent "triage"
            ("Assess patient complaint: " ++ complaint2) c1 env1 with
        | none => .blocked
        | some (triage_out, c2, env2) =>
          if containsSub "EMERGENCY_ABORT:" triage_out then
            .emergency (pyStrip (pySplitGet1 "EMERGENCY_ABORT:" triage_out)) c2 env2
          else if containsSub "CLARIFY_COMPLAINT:" triage_out then
            triagePhase n (some complaint2) c2 env2
          else if containsSub "TRIAGE_SUMMARY:" triage_out then
            .done { c2 with history_present_illness :=
                      pyStrip (pySplitGet1 "TRIAGE_SUMMARY:" triage_out) } env2
          else
            .done { c2 with history_present_illness := triage_out } env2

/-- Python `l[-1] if l else d`, the idiom the orchestrator uses both for
the dispatch context and for the finalization fallback. -/
def lastOr (l : List String) (d : String) : String :=
  match l.getLast? with
  | some x => x
  | none => d

/-- Model of `MedicalOrchestrator._dispatch_command`: an `if`/`elif` chain testing
the markers in the fixed order `ORDER_LAB:`, `ORDER_IMAGING:`,
`CONSULT_LITERATURE:`, `ASK_PATIENT:` (the last is a no-op here, handled by
the caller); a response matching none of them dispatches nothing. -/
def dispatchCommand (decision : String) (c : PatientCase) (env : Env) :
    Option (PatientCase × Env) :=
  if containsSub "ORDER_LAB:" decision then
    let test := pyStrip (pySplitGet1 "ORDER_LAB:" decision)
    let ctx := lastOr c.differential_diagnosis ""
    match invokeAgent "evidence"
        ("Order " ++ test ++ " with context=\x27" ++ ctx ++ "\x27") c env with
    | none => none
    | some (res, c1, env1) =>
      some (addLog c1 "system" ("Lab Result Received: " ++ res), env1)
  else if containsSub "ORDER_IMAGING:" decision then
    let req := pyStrip (pySplitGet1 "ORDER_IMAGING:" decision)
    let ctx := lastOr c.differential_diagnosis ""
    match invokeAgent "imaging"
        ("Order " ++ req ++ " with context=\x27" ++ ctx ++ "\x27") c env with
    | none => none
    | some (res, c1, env1) =>
      some (addLog c1 "system" ("Imaging Report Received: " ++ res), env1)
  else if containsSub "CONSULT_LITERATURE:" decision then
    let query := pyStrip (pySplitGet1 "CONSULT_LITERATURE:" decision)
    match invokeAgent "research" query c env with
    | none => none
    | some (res, c1, env1) =>
      some (addLog c1 "system" ("Research Finding: " ++ res), env1)
  else
    some (c, env)

/-- The `while choice not in ["1", "2"]` prompt: consume inputs until one
strips to `"1"` or `"2"`; an exhausted script models a user who never
enters a valid choice (the loop spins forever). -/
def getChoice : List String → Option (String × List String)
  | [] => none
  | s :: rest =>
    let choice := pyStrip s
    if choice = "1" ∨ choice = "2" then some (choice, rest)
    else getChoice rest

/-- The `ASK_PATIENT:` handling inside the judge loop (lines 188–219):
returns the updated `user_finished` flag, case and environment. -/
def askPatientStep (decision : String) (c : PatientCase) (env : Env) :
    Option (Bool × PatientCase × Env) :=
  if containsSub "ASK_PATIENT:" decision then
    let question := pyStrip (pySplitGet1 "ASK_PATIENT:" decision)
    match getChoice env.inputs with
    | none => none
    | some (choice, restInputs) =>
      let env1 := { env with inputs := restInputs }
      if choice = "1" then
        match readInput env1 with
        | none => none
        | some (user_answer, env2) =>
          if pyStrip user_answer = "" then some (true, c, env2)
          else
            some (false,
              { c with history_present_illness :=
                  c.history_present_illness ++ "\n[Interview] Q: " ++
                    question ++ " A: " ++ user_answer }, env2)
      else some (true, c, env1)
  else some (false, c, env)

/-- Model of `MAX_LOOPS`, the bound of the judge loop in the interactive orchestrator. -/
def MAX_LOOPS : Nat := 3

/-- The judge loop (`for i in range(MAX_LOOPS)`, lines 166–224), recursing
on the remaining iterations.  The returned `Nat` counts the iterations that
ran their body (invoked the judge); an iteration that breaks immediately on
`user_finished` is not counted, matching the early `break` at the top of the `for` body. -/
def judgeLoop : Nat → Bool → PatientCase → Env → Option (PatientCase × Env × Nat)
  | 0, _, c, env => some (c, env, 0)
  | n + 1, userFinished, c, env =>
    if userFinished then some (c, env, 0)
    else
      match invokeAgent "judge" "Review evidence. Decide next step." c env with
      | none => none
      | some (decision, c1, env1) =>
        if containsSub "DIAGNOSIS_FINAL:" decision then
          let fd := pyStrip (pySplitGet1 "DIAGNOSIS_FINAL:" decision)
          some ({ c1 with final_diagnosis := some fd }, env1, 1)
        else
          match dispatchCommand decision c1 env1 with
          | none => none
          | some (c2, env2) =>
            match askPatientStep decision c2 env2 with
            | none => none
            | some (uf, c3, env3) =>
              if uf then
                match judgeLoop n true c3 env3 with
                | none => none
                | some (c4, env4, k) => some (c4, env4, k + 1)
              else
                match invokeAgent "hypothesis"
                    "Update Differential based on new evidence." c3 env3 with
                | none => none
                | some (hypo_update, c4, env4) =>
                  match judgeLoop n false
                      { c4 with differential_diagnosis :=
                          c4.differential_diagnosis ++ [hypo_update] } env4 with
                  | none => none
                  | some (c5, env5, k) => some (c5, env5, k + 1)

/-- The final-report step (lines 236–238): when `final_diagnosis` is truthy,
invoke the research worker for a handoff report and append it to
`research_notes`. -/
def handoff (c : PatientCase) (env : Env) : Option (PatientCase × Env) :=
  if pyFalsyOptStr c.final_diagnosis then some (c, env)
  else
    match invokeAgent "research"
        ("Write Physician Handoff for: " ++ c.final_diagnosis.getD "") c env with
    | none => none
    | some (report, c1, env1) =>
      some ({ c1 with research_notes := c1.research_notes ++ [report] }, env1)

/-- The task text of the one forced post-loop judge invocation. -/
def finalJudgeTask : String :=
  "Based on all evidence gathered, provide your final diagnosis. Start with DIAGNOSIS_FINAL:"

/-- Finalization (lines 226–238): when `final_diagnosis` is still falsy,
force one judge invocation; if its answer carries `DIAGNOSIS_FINAL:`, use
it, otherwise fall back to the last differential entry or the
`"Inconclusive - Referral Required"` sentinel; then the handoff step. -/
def finalize (c : PatientCase) (env : Env) : Option (PatientCase × Env) :=
  if pyFalsyOptStr c.final_diagnosis then
    match invokeAgent "judge" finalJudgeTask c env with
    | none => none
    | some (final_reasoning, c1, env1) =>
      let fd := pyStrip (pySplitGet1 "DIAGNOSIS_FINAL:" final_reasoning)
      let fallback := lastOr c1.differential_diagnosis "Inconclusive - Referral Required"
      let c2 :=
        if containsSub "DIAGNOSIS_FINAL:" final_reasoning then
          { c1 with final_diagnosis := some fd }
        else
          { c1 with final_diagnosis := some fallback }
      handoff c2 env1
  else handoff c env

/-- Model of `str(EmergencyAbortException(reason))`
(`src/domain/exceptions/medical.py`, `__init__`). -/
def emergencyMessage (reason : String) : String :=
  "EMERGENCY PROTOCOL ACTIVATED: " ++ reason

/-- The fresh case built at line 102 (`PatientCase(chief_complaint="",
age=age, gender=sex)`). -/
def initialCase (age : Int) (sex : String) : PatientCase :=
  { chief_complaint := "", age := some age, gender := some sex }

/-- Model of `max_triage_attempts`, the bound of the triage clarification loop. -/
def maxTriageAttempts : Nat := 5

/-- Model of `run_diagnostic_loop` after demographics collection: triage phase,
hypothesis generation, judge loop, finalization; an
`EmergencyAbortException` from triage is caught at the top level and its
message becomes the final diagnosis. -/
def runDiagnostic (age : Int) (sex : String) (env : Env) :
    Option (PatientCase × Env) :=
  match triagePhase maxTriageAttempts none (initialCase age sex) env with
  | .blocked => none
  | .emergency reason c env1 =>
    some ({ c with final_diagnosis := some (emergencyMessage reason) }, env1)
  | .done c1 env1 =>
    match invokeAgent "hypothesis" "Generate Differential Diagnosis." c1 env1 with
    | none => none
    | some (hypo_out, c2, env2) =>
      let c3 := { c2 with differential_diagnosis :=
                    c2.differential_diagnosis ++ [hypo_out] }
      match judgeLoop MAX_LOOPS false c3 env2 with
      | none => none
      | some (c4, env4, _) => finalize c4 env4

/-- The whole `run_diagnostic_loop`: collect demographics from the input
script, then run the diagnostic phases. -/
def runDiagnosticLoop (env : Env) : Option (PatientCase × Env) :=
  match collectDemographics env.inputs with
  | none => none
  | some (age, sex, rest) => runDiagnostic age sex { env with inputs := rest }

/-- Number of hypothesis-worker invocations recorded in the call trace. -/
def hypoCalls (env : Env) : Nat :=
  (env.calls.filter fun p => p.1 == "hypothesis").length

theorem hypoCalls_append (env : Env) (rest : List WorkerResult)
    (inputs : List String) (name task : String) :
    hypoCalls { inputs := inputs, responses := rest,
                calls := env.calls ++ [(name, task)] } =
      hypoCalls env + (if name = "hypothesis" then 1 else 0) := by
  simp only [hypoCalls, List.filter_append, List.length_append]
  congr 1
  by_cases h : name = "hypothesis" <;> simp [h]

/-- Everything `_invoke_agent` guarantees about its outputs, independent of
the scripted response: the returned case differs from the input case at
most in `action_log`, exactly one call is traced, and no console input is
consumed. -/
theorem invokeAgent_some {name task : String} {c : PatientCase} {env : Env}
    {r : String} {c1 : PatientCase} {env1 : Env}
    (h : invokeAgent name task c env = some (r, c1, env1)) :
    c1.differential_diagnosis = c.differential_diagnosis ∧
    c1.research_notes = c.research_notes ∧
    c1.final_diagnosis = c.final_diagnosis ∧
    c1.chief_complaint = c.chief_complaint ∧
    c1.history_present_illness = c.history_present_illness ∧
    env1.calls = env.calls ++ [(name, task)] ∧
    env1.inputs = env.inputs := by
  unfold invokeAgent at h
  cases henv : env.responses with
  | nil => rw [henv] at h; exact absurd h (by simp)
  | cons rr rest =>
    rw [henv] at h
    cases rr with
    | ok t =>
      by_cases ht : t = "" <;> simp only [ht, if_true, if_false, ite_true,
          ite_false, if_neg, Option.some.injEq, Prod.mk.injEq, addLog] at h
      · obtain ⟨-, h2, h3⟩ := h
        subst h2; subst h3
        simp
      · obtain ⟨-, h2, h3⟩ := h
        subst h2; subst h3
        simp
    | err m =>
      simp only [Option.some.injEq, Prod.mk.injEq] at h
      obtain ⟨-, h2, h3⟩ := h
      subst h2; subst h3
      simp

/-- The hypothesis-call count after an `_invoke_agent` call to a worker
other than the hypothesis worker is unchanged. -/
theorem invokeAgent_hypoCalls_other {name task : String} {c : PatientCase}
    {env : Env} {r : String} {c1 : PatientCase} {env1 : Env}
    (h : invokeAgent name task c env = some (r, c1, env1))
    (hn : name ≠ "hypothesis") : hypoCalls env1 = hypoCalls env := by
  obtain ⟨-, -, -, -, -, hcalls, -⟩ := invokeAgent_some h
  simp [hypoCalls, hcalls, List.filter_append, hn]

/-- An `_invoke_agent` call to the hypothesis worker adds one to the
hypothesis-call count. -/
theorem invokeAgent_hypoCalls_hypo {task : String} {c : PatientCase}
    {env : Env} {r : String} {c1 : PatientCase} {env1 : Env}
    (h : invokeAgent "hypothesis" task c env = some (r, c1, env1)) :
    hypoCalls env1 = hypoCalls env + 1 := by
  obtain ⟨-, -, -, -, -, hcalls, -⟩ := invokeAgent_some h
  simp [hypoCalls, hcalls, List.filter_append]

/-- Everything `_dispatch_command` guarantees about its outputs: it never
touches the differential, the research notes, the final diagnosis or the
narrative, never invokes the hypothesis worker, and never reads input. -/
theorem dispatchCommand_some {d : String} {c : PatientCase} {env : Env}
    {c1 : PatientCase} {env1 : Env}
    (h : dispatchCommand d c env = some (c1, env1)) :
    c1.differential_diagnosis = c.differential_diagnosis ∧
    c1.research_notes = c.research_notes ∧
    c1.final_diagnosis = c.final_diagnosis ∧
    c1.history_present_illness = c.history_present_illness ∧
    hypoCalls env1 = hypoCalls env ∧
    env1.inputs = env.inputs := by
  simp only [dispatchCommand] at h
  split at h
  · split at h
    · exact absurd h (by simp)
    · rename_i res ca ea heq
      simp only [Option.some.injEq, Prod.mk.injEq] at h
      obtain ⟨h2, h3⟩ := h
      subst h2; subst h3
      obtain ⟨d1, d2, d3, -, d5, -, d7⟩ := invokeAgent_some heq
      have hh := invokeAgent_hypoCalls_other heq (by decide)
      simp [addLog, d1, d2, d3, d5, hh, d7]
  · split at h
    · split at h
      · exact absurd h (by simp)
      · rename_i res ca ea heq
        simp only [Option.some.injEq, Prod.mk.injEq] at h
        obtain ⟨h2, h3⟩ := h
        subst h2; subst h3
        obtain ⟨d1, d2, d3, -, d5, -, d7⟩ := invokeAgent_some heq
        have hh := invokeAgent_hypoCalls_other heq (by decide)
        simp [addLog, d1, d2, d3, d5, hh, d7]
    · split at h
      · split at h
        · exact absurd h (by simp)
        · rename_i res ca ea heq
          simp only [Option.some.injEq, Prod.mk.injEq] at h
          obtain ⟨h2, h3⟩ := h
          subst h2; subst h3
          obtain ⟨d1, d2, d3, -, d5, -, d7⟩ := invokeAgent_some heq
          have hh := invokeAgent_hypoCalls_other heq (by decide)
          simp [addLog, d1, d2, d3, d5, hh, d7]
      · simp only [Option.some.injEq, Prod.mk.injEq] at h
        obtain ⟨h2, h3⟩ := h
        subst h2; subst h3
        simp

/-- Everything the `ASK_PATIENT` handling guarantees: it only reads console
input and possibly appends to the narrative; it performs no worker
invocation and leaves the audit log, the differential, the research notes
and the final diagnosis untouched. -/
theorem askPatientStep_some {d : String} {c : PatientCase} {env : Env}
    {uf : Bool} {c1 : PatientCase} {env1 : Env}
    (h : askPatientStep d c env = some (uf, c1, env1)) :
    c1.differential_diagnosis = c.differential_diagnosis ∧
    c1.research_notes = c.research_notes ∧
    c1.final_diagnosis = c.final_diagnosis ∧
    c1.action_log = c.action_log ∧
    env1.calls = env.calls ∧
    env1.responses = env.responses := by
  simp only [askPatientStep] at h
  split at h
  · split at h
    · exact absurd h (by simp)
    · rename_i choice restInputs heq
      split at h
      · cases hread : readInput { env with inputs := restInputs } with
        | none => rw [hread] at h; exact absurd h (by simp)
        | some p =>
          obtain ⟨answer, env2⟩ := p
          rw [hread] at h
          have henv2 : env2.calls = env.calls ∧ env2.responses = env.responses := by
            simp only [readInput] at hread
            cases restInputs with
            | nil => exact absurd hread (by simp)
            | cons s rest =>
              simp only [Option.some.injEq, Prod.mk.injEq] at hread
              obtain ⟨-, h4⟩ := hread
              subst h4
              exact ⟨rfl, rfl⟩
          split at h
          · exact absurd h (by simp)
          · rename_i raw env3 hsome
            simp only [Option.some.injEq, Prod.mk.injEq] at hsome
            obtain ⟨ha, he⟩ := hsome
            subst ha
            subst he
            split at h
            all_goals
              simp only [Option.some.injEq, Prod.mk.injEq] at h
              obtain ⟨-, h2, h3⟩ := h
              subst h2; subst h3
              simp [henv2.1, henv2.2]
      · simp only [Option.some.injEq, Prod.mk.injEq] at h
        obtain ⟨-, h2, h3⟩ := h
        subst h2; subst h3
        simp
  · simp only [Option.some.injEq, Prod.mk.injEq] at h
    obtain ⟨-, h2, h3⟩ := h
    subst h2; subst h3
    simp

theorem hypoCalls_eq_of_calls_eq {e1 e2 : Env} (h : e1.calls = e2.calls) :
    hypoCalls e1 = hypoCalls e2 := by
  simp [hypoCalls, h]

/-- Judge-loop invariant: the loop runs at most `fuel` full iterations, and
the differential grows by exactly one entry per hypothesis-worker
invocation (counted in the call trace). -/
theorem judgeLoop_some {fuel : Nat} :
    ∀ {uf : Bool} {c : PatientCase} {env : Env} {c2 : PatientCase}
      {env2 : Env} {n : Nat},
      judgeLoop fuel uf c env = some (c2, env2, n) →
      n ≤ fuel ∧
        c2.differential_diagnosis.length + hypoCalls env =
          c.differential_diagnosis.length + hypoCalls env2 := by
  induction fuel with
  | zero =>
    intro uf c env c2 env2 n h
    simp only [judgeLoop, Option.some.injEq, Prod.mk.injEq] at h
    obtain ⟨h1, h2, h3⟩ := h
    subst h1; subst h2; subst h3
    exact ⟨Nat.le_refl 0, rfl⟩
  | succ m ih =>
    intro uf c env c2 env2 n h
    simp only [judgeLoop] at h
    split at h
    · simp only [Option.some.injEq, Prod.mk.injEq] at h
      obtain ⟨h1, h2, h3⟩ := h
      subst h1; subst h2; subst h3
      exact ⟨Nat.zero_le _, rfl⟩
    · split at h
      · exact absurd h (by simp)
      · rename_i decision c1 env1 hjudge
        obtain ⟨j1, -, -, -, -, -, -⟩ := invokeAgent_some hjudge
        have hj := invokeAgent_hypoCalls_other hjudge (by decide)
        have j1l := congrArg List.length j1
        split at h
        · simp only [Option.some.injEq, Prod.mk.injEq] at h
          obtain ⟨h1, h2, h3⟩ := h
          subst h1; subst h2; subst h3
          refine ⟨by omega, ?_⟩
          simp only [List.length_cons]
          omega
        · split at h
          · exact absurd h (by simp)
          · rename_i cD envD hdisp
            obtain ⟨p1, -, -, -, p5, -⟩ := dispatchCommand_some hdisp
            have p1l := congrArg List.length p1
            split at h
            · exact absurd h (by simp)
            · rename_i uf2 cA envA hask
              obtain ⟨a1, -, -, -, a5, -⟩ := askPatientStep_some hask
              have a1l := congrArg List.length a1
              have a5h := hypoCalls_eq_of_calls_eq a5
              split at h
              · split at h
                · exact absurd h (by simp)
                · rename_i c5 env5 k hrec
                  simp only [Option.some.injEq, Prod.mk.injEq] at h
                  obtain ⟨h1, h2, h3⟩ := h
                  subst h1; subst h2; subst h3
                  obtain ⟨hle, hbal⟩ := ih hrec
                  exact ⟨by omega, by omega⟩
              · split at h
                · exact absurd h (by simp)
                · rename_i hy cH envH hhypo
                  obtain ⟨q1, -, -, -, -, -, -⟩ := invokeAgent_some hhypo
                  have hq := invokeAgent_hypoCalls_hypo hhypo
                  have q1l := congrArg List.length q1
                  split at h
                  · exact absurd h (by simp)
                  · rename_i c6 env6 k hrec
                    simp only [Option.some.injEq, Prod.mk.injEq] at h
                    obtain ⟨h1, h2, h3⟩ := h
                    subst h1; subst h2; subst h3
                    obtain ⟨hle, hbal⟩ := ih hrec
                    simp only [List.length_append, List.length_cons,
                      List.length_nil] at hbal
                    exact ⟨by omega, by omega⟩

/-- Proof infrastructure: the case and environment carried by a non-blocked
triage outcome. -/
def triageCaseEnv : TriageResult → Option (PatientCase × Env)
  | .blocked => none
  | .emergency _ c e => some (c, e)
  | .done c e => some (c, e)

/-- Triage-phase invariant: whether it completes or aborts with an
emergency, the triage loop never touches the differential, the research
notes or the final diagnosis, and every worker invocation it performs is a
triage invocation. -/
theorem triagePhase_spec (m : Nat) :
    ∀ {comp : Option String} {c : PatientCase} {env : Env}
      {c1 : PatientCase} {env1 : Env},
      triageCaseEnv (triagePhase m comp c env) = some (c1, env1) →
      c1.differential_diagnosis = c.differential_diagnosis ∧
      c1.research_notes = c.research_notes ∧
      c1.final_diagnosis = c.final_diagnosis ∧
      ∃ l, env1.calls = env.calls ++ l ∧ ∀ p ∈ l, p.1 = "triage" := by
  induction m with
  | zero =>
    intro comp c env c1 env1 h
    simp only [triagePhase, triageCaseEnv, Option.some.injEq, Prod.mk.injEq] at h
    obtain ⟨h1, h2⟩ := h
    subst h1; subst h2
    exact ⟨rfl, rfl, rfl, [], by simp, by simp⟩
  | succ k ih =>
    intro comp c env c1 env1 h
    simp only [triagePhase] at h
    split at h
    · simp [triageCaseEnv] at h
    · rename_i raw envR hread
      have hRcalls : envR.calls = env.calls := by
        simp only [readInput] at hread
        cases hinp : env.inputs with
        | nil => rw [hinp] at hread; simp at hread
        | cons s rest =>
          rw [hinp] at hread
          simp only [Option.some.injEq, Prod.mk.injEq] at hread
          obtain ⟨-, h4⟩ := hread
          subst h4
          rfl
      split at h
      · obtain ⟨s1, s2, s3, l, s5, s6⟩ := ih h
        exact ⟨s1, s2, s3, l, by rw [s5, hRcalls], s6⟩
      · split at h
        · simp [triageCaseEnv] at h
        · rename_i tout cT envT hinv
          obtain ⟨t1, t2, t3, -, -, t6, -⟩ := invokeAgent_some hinv
          have hx : ∃ x : String × String,
              envT.calls = env.calls ++ [x] ∧ x.1 = "triage" :=
            ⟨_, by rw [t6, hRcalls], rfl⟩
          obtain ⟨x, hx1, hx2⟩ := hx
          split at h
          · simp only [triageCaseEnv, Option.some.injEq, Prod.mk.injEq] at h
            obtain ⟨h1, h2⟩ := h
            subst h1; subst h2
            refine ⟨by simp [t1], by simp [t2], by simp [t3], [x], hx1, ?_⟩
            intro p hp
            rw [List.mem_singleton.mp hp]
            exact hx2
          · split at h
            · obtain ⟨s1, s2, s3, l, s5, s6⟩ := ih h
              refine ⟨by rw [s1, t1], by rw [s2, t2], by rw [s3, t3],
                x :: l, ?_, ?_⟩
              · rw [s5, hx1, List.append_assoc]
                rfl
              · intro p hp
                rcases List.mem_cons.mp hp with hp | hp
                · rw [hp]; exact hx2
                · exact s6 p hp
            · split at h
              all_goals
                simp only [triageCaseEnv, Option.some.injEq, Prod.mk.injEq] at h
                obtain ⟨h1, h2⟩ := h
                subst h1; subst h2
                refine ⟨by simp [t1], by simp [t2], by simp [t3], [x], hx1, ?_⟩
                intro p hp
                rw [List.mem_singleton.mp hp]
                exact hx2

/-- The handoff step never changes the final diagnosis or the differential,
and never invokes the hypothesis worker. -/
theorem handoff_some {c : PatientCase} {env : Env} {c1 : PatientCase}
    {env1 : Env} (h : handoff c env = some (c1, env1)) :
    c1.final_diagnosis = c.final_diagnosis ∧
    c1.differential_diagnosis = c.differential_diagnosis ∧
    hypoCalls env1 = hypoCalls env := by
  simp only [handoff] at h
  split at h
  · simp only [Option.some.injEq, Prod.mk.injEq] at h
    obtain ⟨h1, h2⟩ := h
    subst h1; subst h2
    exact ⟨rfl, rfl, rfl⟩
  · split at h
    · exact absurd h (by simp)
    · rename_i report cR envR hinv
      simp only [Option.some.injEq, Prod.mk.injEq] at h
      obtain ⟨h1, h2⟩ := h
      subst h1; subst h2
      obtain ⟨r1, -, r3, -, -, -, -⟩ := invokeAgent_some hinv
      have hr := invokeAgent_hypoCalls_other hinv (by decide)
      exact ⟨by simp [r3], by simp [r1], hr⟩

/-- Finalization never changes the differential and never invokes the
hypothesis worker. -/
theorem finalize_some {c : PatientCase} {env : Env} {c1 : PatientCase}
    {env1 : Env} (h : finalize c env = some (c1, env1)) :
    c1.differential_diagnosis = c.differential_diagnosis ∧
    hypoCalls env1 = hypoCalls env := by
  simp only [finalize] at h
  split at h
  · split at h
    · exact absurd h (by simp)
    · rename_i fr cF envF hinv
      obtain ⟨f1, -, -, -, -, -, -⟩ := invokeAgent_some hinv
      have hf := invokeAgent_hypoCalls_other hinv (by decide)
      split at h
      all_goals
        obtain ⟨-, g2, g3⟩ := handoff_some h
        refine ⟨?_, by rw [g3, hf]⟩
        rw [g2]
        simpa using f1
  · obtain ⟨-, g2, g3⟩ := handoff_some h
    exact ⟨g2, g3⟩

theorem collectAge_spec :
    ∀ {inputs : List String} {age : Int} {rest : List String},
      collectAge inputs = some (age, rest) → 0 < age ∧ age < 200 := by
  intro inputs
  induction inputs with
  | nil => intro age rest h; exact absurd h (by simp [collectAge])
  | cons s tail ih =>
    intro age rest h
    simp only [collectAge] at h
    split at h
    · exact ih h
    · rename_i a hparse
      split at h
      · rename_i hrange
        simp only [Option.some.injEq, Prod.mk.injEq] at h
        obtain ⟨h1, -⟩ := h
        subst h1
        exact hrange
      · exact ih h

theorem collectSex_spec :
    ∀ {inputs : List String} {sex : String} {rest : List String},
      collectSex inputs = some (sex, rest) → sex = "Male" ∨ sex = "Female" := by
  intro inputs
  induction inputs with
  | nil => intro sex rest h; exact absurd h (by simp [collectSex])
  | cons s tail ih =>
    intro sex rest h
    simp only [collectSex] at h
    split at h
    · simp only [Option.some.injEq, Prod.mk.injEq] at h
      obtain ⟨h1, -⟩ := h
      subst h1
      exact Or.inl rfl
    · split at h
      · simp only [Option.some.injEq, Prod.mk.injEq] at h
        obtain ⟨h1, -⟩ := h
        subst h1
        exact Or.inr rfl
      · exact ih h

/-- Claim C10: the interactive intake only ever produces an age strictly
between 0 and 200 and a sex equal to `"Male"` or `"Female"` (inputs
`m`/`male`/`f`/`female` in any case are normalised; everything else is
rejected and re-prompted), so no case is created with demographics outside
these ranges. -/
theorem collect_demographics_valid (inputs : List String) (age : Int)
    (sex : String) (rest : List String)
    (h : collectDemographics inputs = some (age, sex, rest)) :
    0 < age ∧ age < 200 ∧ (sex = "Male" ∨ sex = "Female") := by
  simp only [collectDemographics] at h
  split at h
  · exact absurd h (by simp)
  · rename_i a restA hage
    split at h
    · exact absurd h (by simp)
    · rename_i sx restS hsex
      simp only [Option.some.injEq, Prod.mk.injEq] at h
      obtain ⟨h1, h2, -⟩ := h
      subst h1; subst h2
      obtain ⟨b1, b2⟩ := collectAge_spec hage
      exact ⟨b1, b2, collectSex_spec hsex⟩

theorem collect_demographics_valid_witness :
    0 < (45 : Int) ∧ (45 : Int) < 200 ∧
      ("Male" = "Male" ∨ "Male" = "Female") :=
  collect_demographics_valid ["45", "m"] 45 "Male" [] (by decide)

/-- Claim C3: every successful worker invocation (non-empty response, no
upstream failure) appends exactly one audit entry recording the worker name
and the response text to the action log of the case before returning the
response to the caller. -/
theorem invoke_agent_logs_success (name task : String) (c : PatientCase)
    (env : Env) (t : String) (rest : List WorkerResult)
    (hresp : env.responses = .ok t :: rest) (ht : t ≠ "") :
    ∃ c2 env2, invokeAgent name task c env = some (t, c2, env2) ∧
      c2.action_log = c.action_log ++ [⟨name, t⟩] := by
  refine ⟨addLog c name t,
    { env with responses := rest, calls := env.calls ++ [(name, task)] },
    ?_, by simp [addLog]⟩
  simp [invokeAgent, hresp, ht]

theorem invoke_agent_logs_success_witness :
    ∃ c2 env2,
      invokeAgent "triage" "Assess patient complaint: headache"
          { chief_complaint := "headache" }
          { inputs := [], responses := [.ok "TRIAGE_SUMMARY: mild headache"] }
        = some ("TRIAGE_SUMMARY: mild headache", c2, env2) ∧
      c2.action_log = ({ chief_complaint := "headache" } : PatientCase).action_log ++
        [⟨"triage", "TRIAGE_SUMMARY: mild headache"⟩] :=
  invoke_agent_logs_success "triage" "Assess patient complaint: headache"
    { chief_complaint := "headache" }
    { inputs := [], responses := [.ok "TRIAGE_SUMMARY: mild headache"] }
    "TRIAGE_SUMMARY: mild headache" [] (by decide) (by decide)

/-- Counterexample to claim C6: a whitespace-only worker response (here a
single space) is NOT treated as the empty-response failure — it is returned
as ordinary response text and logged as a successful response, because the
code only tests `if not response_text`, which is false for `" "`. -/
theorem whitespace_response_treated_as_success_cex :
    (invokeAgent "judge" "Review evidence. Decide next step."
        { chief_complaint := "" }
        { inputs := [], responses := [.ok " "] }).map
      (fun r => (r.1, r.2.1.action_log))
    = some (" ", [⟨"judge", " "⟩]) := by decide

/-- Claim C6 (amended): only a truly empty worker response is treated as
the empty-response failure — the invoker returns the sentinel
`"ERROR: No response from agent."` instead of response text, appends no
audit entry, and returns normally (the session continues); whitespace-only
responses are treated as ordinary successful responses. -/
theorem empty_response_sentinel (name task : String) (c : PatientCase)
    (env : Env) (rest : List WorkerResult)
    (hresp : env.responses = .ok "" :: rest) :
    invokeAgent name task c env =
      some ("ERROR: No response from agent.", c,
        { env with responses := rest, calls := env.calls ++ [(name, task)] }) := by
  simp [invokeAgent, hresp]

theorem empty_response_sentinel_witness :
    invokeAgent "hypothesis" "Generate Differential Diagnosis."
        { chief_complaint := "" }
        { inputs := [], responses := [.ok ""] } =
      some ("ERROR: No response from agent.", { chief_complaint := "" },
        { inputs := [], responses := [],
          calls := [("hypothesis", "Generate Differential Diagnosis.")] }) :=
  empty_response_sentinel "hypothesis" "Generate Differential Diagnosis."
    { chief_complaint := "" } { inputs := [], responses := [.ok ""] } []
    (by decide)

/-- Counterexample to claim C9: when the worker invocation raises, no
`SYSTEM ERROR` entry is recorded in the audit log of the case — the action log
is left untouched (the error goes only to the process logger); the sentinel
is merely returned to the caller. -/
theorem upstream_error_not_in_audit_log_cex :
    (invokeAgent "judge" "Review evidence. Decide next step."
        { chief_complaint := "" }
        { inputs := [], responses := [.err "connection reset"] }).map
      (fun r => (r.1, r.2.1.action_log))
    = some ("SYSTEM ERROR: connection reset", []) := by decide

/-- Claim C9 (amended): when a worker invocation itself fails, the
exception is caught and the invoker returns the sentinel
`"SYSTEM ERROR: <message>"` to the caller without appending any audit
entry; the session does not crash and control flow continues exactly as for
an empty response (a normal return carrying a sentinel string, with no
audit entry). -/
theorem upstream_error_flow (name task : String) (c : PatientCase)
    (env : Env) (msg : String) (rest : List WorkerResult)
    (hresp : env.responses = .err msg :: rest) :
    invokeAgent name task c env =
      some ("SYSTEM ERROR: " ++ msg, c,
        { env with responses := rest, calls := env.calls ++ [(name, task)] }) := by
  simp [invokeAgent, hresp]

theorem upstream_error_flow_witness :
    invokeAgent "evidence" "Order Troponin with context=\x27\x27"
        { chief_complaint := "" }
        { inputs := [], responses := [.err "model overloaded"] } =
      some ("SYSTEM ERROR: " ++ "model overloaded", { chief_complaint := "" },
        { inputs := [], responses := [],
          calls := [("evidence", "Order Troponin with context=\x27\x27")] }) :=
  upstream_error_flow "evidence" "Order Troponin with context=\x27\x27"
    { chief_complaint := "" }
    { inputs := [], responses := [.err "model overloaded"] }
    "model overloaded" [] (by decide)

/-- An invocation either leaves the audit log alone (failure paths) or
appends exactly the one entry for the invoked worker. -/
theorem invokeAgent_some_log {name task : String} {c : PatientCase}
    {env : Env} {r : String} {c1 : PatientCase} {env1 : Env}
    (h : invokeAgent name task c env = some (r, c1, env1)) :
    c1.action_log = c.action_log ∨
      c1.action_log = c.action_log ++ [⟨name, r⟩] := by
  unfold invokeAgent at h
  cases henv : env.responses with
  | nil => rw [henv] at h; exact absurd h (by simp)
  | cons rr rest =>
    rw [henv] at h
    cases rr with
    | ok t =>
      by_cases ht : t = "" <;> simp only [ht, if_true, if_false, ite_true,
          ite_false, if_neg, Option.some.injEq, Prod.mk.injEq, addLog] at h
      · obtain ⟨-, h2, -⟩ := h
        subst h2
        exact Or.inl rfl
      · obtain ⟨h1, h2, -⟩ := h
        subst h1; subst h2
        exact Or.inr rfl
    | err m =>
      simp only [Option.some.injEq, Prod.mk.injEq] at h
      obtain ⟨-, h2, -⟩ := h
      subst h2
      exact Or.inl rfl

/-- Counterexample to claim C4: in the response
`"ORDER_IMAGING: CT head then ORDER_LAB: Troponin"` the marker
`ORDER_IMAGING:` occurs at an earlier position than `ORDER_LAB:`, yet
dispatching it performs exactly one invocation of the evidence (lab) worker
and none of the imaging worker: the `elif` chain of the dispatcher tests
`ORDER_LAB:` first regardless of textual position. -/
theorem dispatch_first_position_cex :
    (dispatchCommand "ORDER_IMAGING: CT head then ORDER_LAB: Troponin"
        { chief_complaint := "" }
        { inputs := [], responses := [.ok "Troponin 0.01 ng/mL [NORMAL]"] }).map
      (fun r => r.2.calls)
    = some [("evidence", "Order Troponin with context=\x27\x27")] := by decide

/-- Claim C4 (amended): for every response, the action acted upon is
determined by the fixed check order `ORDER_LAB:`, `ORDER_IMAGING:`,
`CONSULT_LITERATURE:` of the `elif` chain — the first marker in that order
present anywhere in the text wins, regardless of where each marker occurs
in the response — and exactly the one corresponding worker invocation is
performed (none when no dispatch marker is present).  In particular a
response containing `ORDER_IMAGING:` at an earlier position than
`ORDER_LAB:` results in exactly one lab dispatch and no imaging
dispatch. -/
theorem dispatch_fixed_order (d : String) (c : PatientCase) (env : Env)
    (c1 : PatientCase) (env1 : Env)
    (h : dispatchCommand d c env = some (c1, env1)) :
    env1.calls = env.calls ++
      (if containsSub "ORDER_LAB:" d then
        [("evidence", "Order " ++ pyStrip (pySplitGet1 "ORDER_LAB:" d) ++
          " with context=\x27" ++ lastOr c.differential_diagnosis "" ++ "\x27")]
      else if containsSub "ORDER_IMAGING:" d then
        [("imaging", "Order " ++ pyStrip (pySplitGet1 "ORDER_IMAGING:" d) ++
          " with context=\x27" ++ lastOr c.differential_diagnosis "" ++ "\x27")]
      else if containsSub "CONSULT_LITERATURE:" d then
        [("research", pyStrip (pySplitGet1 "CONSULT_LITERATURE:" d))]
      else []) := by
  simp only [dispatchCommand] at h
  split at h
  · rename_i hc1
    rw [if_pos hc1]
    split at h
    · exact absurd h (by simp)
    · rename_i res ca ea heq
      simp only [Option.some.injEq, Prod.mk.injEq] at h
      obtain ⟨-, h3⟩ := h
      subst h3
      obtain ⟨-, -, -, -, -, e6, -⟩ := invokeAgent_some heq
      exact e6
  · rename_i hc1
    rw [if_neg hc1]
    split at h
    · rename_i hc2
      rw [if_pos hc2]
      split at h
      · exact absurd h (by simp)
      · rename_i res ca ea heq
        simp only [Option.some.injEq, Prod.mk.injEq] at h
        obtain ⟨-, h3⟩ := h
        subst h3
        obtain ⟨-, -, -, -, -, e6, -⟩ := invokeAgent_some heq
        exact e6
    · rename_i hc2
      rw [if_neg hc2]
      split at h
      · rename_i hc3
        rw [if_pos hc3]
        split at h
        · exact absurd h (by simp)
        · rename_i res ca ea heq
          simp only [Option.some.injEq, Prod.mk.injEq] at h
          obtain ⟨-, h3⟩ := h
          subst h3
          obtain ⟨-, -, -, -, -, e6, -⟩ := invokeAgent_some heq
          exact e6
      · rename_i hc3
        rw [if_neg hc3]
        simp only [Option.some.injEq, Prod.mk.injEq] at h
        obtain ⟨-, h3⟩ := h
        subst h3
        simp

def dispatchCexCase : PatientCase := { chief_complaint := "" }

def dispatchCexEnv : Env :=
  { inputs := [], responses := [.ok "Troponin 0.01 ng/mL [NORMAL]"] }

def dispatchCexOut : PatientCase × Env :=
  (dispatchCommand "ORDER_IMAGING: CT head then ORDER_LAB: Troponin"
      dispatchCexCase dispatchCexEnv).getD (dispatchCexCase, dispatchCexEnv)

theorem dispatch_fixed_order_witness :
    dispatchCexOut.2.calls = dispatchCexEnv.calls ++
      (if containsSub "ORDER_LAB:"
          "ORDER_IMAGING: CT head then ORDER_LAB: Troponin" then
        [("evidence", "Order " ++
          pyStrip (pySplitGet1 "ORDER_LAB:"
            "ORDER_IMAGING: CT head then ORDER_LAB: Troponin") ++
          " with context=\x27" ++ lastOr dispatchCexCase.differential_diagnosis "" ++
          "\x27")]
      else if containsSub "ORDER_IMAGING:"
          "ORDER_IMAGING: CT head then ORDER_LAB: Troponin" then
        [("imaging", "Order " ++
          pyStrip (pySplitGet1 "ORDER_IMAGING:"
            "ORDER_IMAGING: CT head then ORDER_LAB: Troponin") ++
          " with context=\x27" ++ lastOr dispatchCexCase.differential_diagnosis "" ++
          "\x27")]
      else if containsSub "CONSULT_LITERATURE:"
          "ORDER_IMAGING: CT head then ORDER_LAB: Troponin" then
        [("research", pyStrip (pySplitGet1 "CONSULT_LITERATURE:"
            "ORDER_IMAGING: CT head then ORDER_LAB: Troponin"))]
      else []) :=
  dispatch_fixed_order "ORDER_IMAGING: CT head then ORDER_LAB: Troponin"
    dispatchCexCase dispatchCexEnv dispatchCexOut.1 dispatchCexOut.2
    (by decide)

/-- Claim C8: dispatching `"ORDER_LAB: Troponin"` performs exactly one
invocation, of the evidence (lab) worker, with a task carrying the argument
`"Troponin"`, and appends exactly one `"system"`-sourced audit entry, whose
text starts with `"Lab Result Received"`. -/
theorem order_lab_troponin_dispatch (c : PatientCase) (env : Env)
    (c1 : PatientCase) (env1 : Env)
    (h : dispatchCommand "ORDER_LAB: Troponin" c env = some (c1, env1)) :
    env1.calls = env.calls ++
      [("evidence", "Order " ++ "Troponin" ++ " with context=\x27" ++
        lastOr c.differential_diagnosis "" ++ "\x27")] ∧
    ∃ res, c1.action_log.filter (fun e => e.source == "system") =
      c.action_log.filter (fun e => e.source == "system") ++
        [⟨"system", "Lab Result Received: " ++ res⟩] := by
  simp only [dispatchCommand] at h
  split at h
  · split at h
    · exact absurd h (by simp)
    · rename_i res ca ea heq
      simp only [Option.some.injEq, Prod.mk.injEq] at h
      obtain ⟨h2, h3⟩ := h
      subst h2; subst h3
      constructor
      · obtain ⟨-, -, -, -, -, e6, -⟩ := invokeAgent_some heq
        rw [e6]
        rw [show pyStrip (pySplitGet1 "ORDER_LAB:" "ORDER_LAB: Troponin") =
          "Troponin" from by decide]
      · refine ⟨res, ?_⟩
        have hlog : ca.action_log = c.action_log ∨
            ca.action_log = c.action_log ++ [⟨"evidence", res⟩] :=
          invokeAgent_some_log heq
        rcases hlog with hlog | hlog <;>
          simp [addLog, hlog, List.filter_append]
  · rename_i hne
    exact absurd (by decide) hne

def orderLabCase : PatientCase :=
  { chief_complaint := "chest pain", differential_diagnosis := ["ACS"] }

def orderLabEnv : Env :=
  { inputs := [], responses := [.ok "Troponin 2.3 ng/mL [CRITICAL]"] }

def orderLabOut : PatientCase × Env :=
  (dispatchCommand "ORDER_LAB: Troponin" orderLabCase orderLabEnv).getD
    (orderLabCase, orderLabEnv)

theorem order_lab_troponin_dispatch_witness :
    orderLabOut.2.calls = orderLabEnv.calls ++
      [("evidence", "Order " ++ "Troponin" ++ " with context=\x27" ++
        lastOr orderLabCase.differential_diagnosis "" ++ "\x27")] ∧
    ∃ res, orderLabOut.1.action_log.filter (fun e => e.source == "system") =
      orderLabCase.action_log.filter (fun e => e.source == "system") ++
        [⟨"system", "Lab Result Received: " ++ res⟩] :=
  order_lab_troponin_dispatch orderLabCase orderLabEnv
    orderLabOut.1 orderLabOut.2 (by decide)

/-- Claim C5: when the judge loop left no (truthy) final diagnosis and the
forced post-loop judge invocation returns text without the
`DIAGNOSIS_FINAL:` marker, the final diagnosis is the last differential
entry verbatim, or the `"Inconclusive - Referral Required"` sentinel when
the differential list is empty. -/
theorem finalize_fallback (c : PatientCase) (env : Env) (fr : String)
    (cF : PatientCase) (envF : Env) (c2 : PatientCase) (env2 : Env)
    (h0 : pyFalsyOptStr c.final_diagnosis = true)
    (hj : invokeAgent "judge" finalJudgeTask c env = some (fr, cF, envF))
    (hm : containsSub "DIAGNOSIS_FINAL:" fr = false)
    (hf : finalize c env = some (c2, env2)) :
    c2.final_diagnosis =
      some (lastOr c.differential_diagnosis "Inconclusive - Referral Required") := by
  simp only [finalize] at hf
  split at hf
  · split at hf
    · exact absurd hf (by simp)
    · rename_i fr2 cF2 envF2 heq
      rw [hj] at heq
      simp only [Option.some.injEq, Prod.mk.injEq] at heq
      obtain ⟨e1, e2, e3⟩ := heq
      subst e1; subst e2; subst e3
      split at hf
      · rename_i hcond
        exact absurd hcond (by simp [hm])
      · obtain ⟨g1, -, -⟩ := handoff_some hf
        rw [g1]
        obtain ⟨j1, -, -, -, -, -, -⟩ := invokeAgent_some hj
        simp [j1]
  · rename_i hcond
    exact absurd h0 hcond

def fallbackCase : PatientCase :=
  { chief_complaint := "headache", differential_diagnosis := ["Migraine"] }

def fallbackEnv : Env :=
  { inputs := [], responses := [.ok "I remain unsure.", .ok "handoff report"] }

def fallbackJudge : String × PatientCase × Env :=
  (invokeAgent "judge" finalJudgeTask fallbackCase fallbackEnv).getD
    ("", fallbackCase, fallbackEnv)

def fallbackOut : PatientCase × Env :=
  (finalize fallbackCase fallbackEnv).getD (fallbackCase, fallbackEnv)

theorem finalize_fallback_witness :
    fallbackOut.1.final_diagnosis =
      some (lastOr fallbackCase.differential_diagnosis
        "Inconclusive - Referral Required") :=
  finalize_fallback fallbackCase fallbackEnv fallbackJudge.1
    fallbackJudge.2.1 fallbackJudge.2.2 fallbackOut.1 fallbackOut.2
    (by decide) (by decide) (by decide) (by decide)

theorem hypoCalls_of_triage_calls {env envE : Env}
    (hl : ∃ l, envE.calls = env.calls ++ l ∧ ∀ p ∈ l, p.1 = "triage") :
    hypoCalls envE = hypoCalls env := by
  obtain ⟨l, h1, h2⟩ := hl
  have hfl : l.filter (fun p => p.1 == "hypothesis") = [] := by
    rw [List.filter_eq_nil_iff]
    intro a ha
    simp [h2 a ha]
  simp [hypoCalls, h1, List.filter_append, hfl]

/-- Counterexample to claim C1: the triage response
`"EMERGENCY_ABORT: crushing chest pain"` terminates the session, but the
final diagnosis is the `EmergencyAbortException` message
`"EMERGENCY PROTOCOL ACTIVATED: crushing chest pain"`, not the string
`"EMERGENCY: crushing chest pain"` the claim predicts. -/
theorem emergency_diagnosis_format_cex :
    (runDiagnostic 50 "Male"
        { inputs := ["crushing chest pain"],
          responses := [.ok "EMERGENCY_ABORT: crushing chest pain"] }).map
      (fun r => r.1.final_diagnosis)
    = some (some "EMERGENCY PROTOCOL ACTIVATED: crushing chest pain") ∧
    "EMERGENCY PROTOCOL ACTIVATED: crushing chest pain" ≠
      "EMERGENCY: crushing chest pain" := by decide

/-- Claim C1 (amended): a triage response with the `EMERGENCY_ABORT:`
marker transitions directly to emergency termination: the run returns the
triage-phase case with `final_diagnosis` set to
`"EMERGENCY PROTOCOL ACTIVATED: "` followed by the trimmed reason, the
differential and research notes are untouched (empty — hypothesis, judge
loop and finalization are skipped), and no worker other than triage was
invoked. -/
theorem emergency_abort_short_circuit (age : Int) (sex : String) (env : Env)
    (reason : String) (cE : PatientCase) (envE : Env)
    (h : triagePhase maxTriageAttempts none (initialCase age sex) env =
      .emergency reason cE envE) :
    runDiagnostic age sex env =
      some ({ cE with final_diagnosis := some (emergencyMessage reason) }, envE) ∧
    cE.differential_diagnosis = [] ∧
    cE.research_notes = [] ∧
    envE.calls.filter (fun p => !(p.1 == "triage")) =
      env.calls.filter (fun p => !(p.1 == "triage")) := by
  have hspec := triagePhase_spec maxTriageAttempts
    (show triageCaseEnv (triagePhase maxTriageAttempts none
        (initialCase age sex) env) = some (cE, envE) by rw [h]; rfl)
  obtain ⟨s1, s2, -, l, s5, s6⟩ := hspec
  refine ⟨by simp [runDiagnostic, h], by simpa [initialCase] using s1,
    by simpa [initialCase] using s2, ?_⟩
  have hfl : l.filter (fun p => !(p.1 == "triage")) = [] := by
    rw [List.filter_eq_nil_iff]
    intro a ha
    simp [s6 a ha]
  simp [s5, List.filter_append, hfl]

/-- The reason carried by an emergency triage outcome. -/
def triageReason : TriageResult → String
  | .emergency r _ _ => r
  | _ => ""

def emergencyEnv : Env :=
  { inputs := ["crushing chest pain"],
    responses := [.ok "EMERGENCY_ABORT: crushing chest pain"] }

def emergencyTri : TriageResult :=
  triagePhase maxTriageAttempts none (initialCase 50 "Male") emergencyEnv

def emergencyOut : PatientCase × Env :=
  (triageCaseEnv emergencyTri).getD (initialCase 50 "Male", emergencyEnv)

theorem emergency_abort_short_circuit_witness :
    runDiagnostic 50 "Male" emergencyEnv =
      some ({ emergencyOut.1 with
        final_diagnosis := some (emergencyMessage (triageReason emergencyTri)) },
        emergencyOut.2) ∧
    emergencyOut.1.differential_diagnosis = [] ∧
    emergencyOut.1.research_notes = [] ∧
    emergencyOut.2.calls.filter (fun p => !(p.1 == "triage")) =
      emergencyEnv.calls.filter (fun p => !(p.1 == "triage")) :=
  emergency_abort_short_circuit 50 "Male" emergencyEnv
    (triageReason emergencyTri) emergencyOut.1 emergencyOut.2 (by decide)

/-- Claim C2: the judge loop executes at most `MAX_LOOPS` full iterations,
and when it completes — with or without a `DIAGNOSIS_FINAL` — the run's
result is exactly the finalization step applied to the output of the loop
(control falls through to finalization; no error is raised). -/
theorem judge_loop_bound (age : Int) (sex : String) (env : Env)
    (c1 : PatientCase) (env1 : Env) (hy : String) (c2 : PatientCase)
    (env2 : Env) (c4 : PatientCase) (env4 : Env) (n : Nat)
    (htr : triagePhase maxTriageAttempts none (initialCase age sex) env =
      .done c1 env1)
    (hhy : invokeAgent "hypothesis" "Generate Differential Diagnosis."
      c1 env1 = some (hy, c2, env2))
    (hjl : judgeLoop MAX_LOOPS false
      { c2 with differential_diagnosis := c2.differential_diagnosis ++ [hy] }
      env2 = some (c4, env4, n)) :
    n ≤ MAX_LOOPS ∧ runDiagnostic age sex env = finalize c4 env4 := by
  refine ⟨(judgeLoop_some hjl).1, ?_⟩
  simp [runDiagnostic, htr, hhy, hjl]

def loopEnv : Env :=
  { inputs := ["headache"],
    responses := [.ok "TRIAGE_SUMMARY: recurring headache", .ok "DDx: tension vs migraine",
                  .ok "No orders needed.", .ok "DDx refined",
                  .ok "Still reviewing.", .ok "DDx refined again",
                  .ok "One more look.", .ok "DDx final form",
                  .ok "DIAGNOSIS_FINAL: Tension headache", .ok "handoff"] }

def loopTri : PatientCase × Env :=
  (triageCaseEnv (triagePhase maxTriageAttempts none (initialCase 40 "Female")
      loopEnv)).getD (initialCase 40 "Female", loopEnv)

def loopHy : String × PatientCase × Env :=
  (invokeAgent "hypothesis" "Generate Differential Diagnosis." loopTri.1
      loopTri.2).getD ("", loopTri.1, loopTri.2)

def loopCase3 : PatientCase :=
  { loopHy.2.1 with differential_diagnosis :=
      loopHy.2.1.differential_diagnosis ++ [loopHy.1] }

def loopOut : PatientCase × Env × Nat :=
  (judgeLoop MAX_LOOPS false loopCase3 loopHy.2.2).getD
    (loopCase3, loopHy.2.2, 0)

theorem judge_loop_bound_witness :
    loopOut.2.2 ≤ MAX_LOOPS ∧
      runDiagnostic 40 "Female" loopEnv = finalize loopOut.1 loopOut.2.1 :=
  judge_loop_bound 40 "Female" loopEnv loopTri.1 loopTri.2 loopHy.1
    loopHy.2.1 loopHy.2.2 loopOut.1 loopOut.2.1 loopOut.2.2
    (by decide) (by decide) (by decide)

/-- Counterexample to claim C7: in this run the single hypothesis
invocation fails with an upstream error, so zero hypothesis invocations
returned a non-empty result (the audit log has no hypothesis entry), yet
the differential has length one — the sentinel
`"SYSTEM ERROR: connection reset"` was appended. -/
theorem failed_hypothesis_appended_cex :
    (runDiagnostic 50 "Male"
        { inputs := ["headache"],
          responses := [.ok "TRIAGE_SUMMARY: headache", .err "connection reset",
                        .ok "DIAGNOSIS_FINAL: Tension headache", .ok "handoff"] }).map
      (fun r => (r.1.differential_diagnosis,
                 (r.1.action_log.filter fun e => e.source == "hypothesis").length,
                 hypoCalls r.2))
    = some (["SYSTEM ERROR: connection reset"], 0, 1) := by decide

/-- Claim C7 (amended): at completion of every session, the length of
`differential_diagnosis` equals the total number of hypothesis-worker
invocations performed — every hypothesis invocation appends exactly one
entry, with failed invocations appending their sentinel error string rather
than being skipped. -/
theorem run_differential_counts_hypo_calls (age : Int) (sex : String)
    (env : Env) (c : PatientCase) (envOut : Env)
    (h : runDiagnostic age sex env = some (c, envOut)) :
    c.differential_diagnosis.length + hypoCalls env = hypoCalls envOut := by
  simp only [runDiagnostic] at h
  split at h
  · exact absurd h (by simp)
  · rename_i reason cE envE htr
    simp only [Option.some.injEq, Prod.mk.injEq] at h
    obtain ⟨h1, h2⟩ := h
    subst h1; subst h2
    obtain ⟨s1, -, -, l, s5, s6⟩ := triagePhase_spec maxTriageAttempts
      (show triageCaseEnv (triagePhase maxTriageAttempts none
          (initialCase age sex) env) = some (cE, envE) by rw [htr]; rfl)
    have htriHypo : hypoCalls envE = hypoCalls env :=
      hypoCalls_of_triage_calls ⟨l, s5, s6⟩
    have s1l := congrArg List.length s1
    simp only [initialCase, List.length_nil] at s1l
    simpa [s1l] using htriHypo.symm
  · rename_i c1 env1 htr
    split at h
    · exact absurd h (by simp)
    · rename_i hy c2 env2 hhy
      split at h
      · exact absurd h (by simp)
      · rename_i c4 env4 n hjl
        obtain ⟨s1, -, -, l, s5, s6⟩ := triagePhase_spec maxTriageAttempts
          (show triageCaseEnv (triagePhase maxTriageAttempts none
              (initialCase age sex) env) = some (c1, env1) by rw [htr]; rfl)
        have htriHypo : hypoCalls env1 = hypoCalls env :=
          hypoCalls_of_triage_calls ⟨l, s5, s6⟩
        obtain ⟨q1, -, -, -, -, -, -⟩ := invokeAgent_some hhy
        have hq := invokeAgent_hypoCalls_hypo hhy
        obtain ⟨-, hbal⟩ := judgeLoop_some hjl
        obtain ⟨f1, f2⟩ := finalize_some h
        have s1l := congrArg List.length s1
        have q1l := congrArg List.length q1
        have f1l := congrArg List.length f1
        simp only [initialCase, List.length_nil] at s1l
        simp only [List.length_append, List.length_cons, List.length_nil] at hbal
        omega

def countEnv : Env :=
  { inputs := ["headache"],
    responses := [.ok "TRIAGE_SUMMARY: headache", .err "connection reset",
                  .ok "DIAGNOSIS_FINAL: Tension headache", .ok "handoff"] }

def countOut : PatientCase × Env :=
  (runDiagnostic 50 "Male" countEnv).getD ({ chief_complaint := "" }, countEnv)

theorem run_differential_counts_hypo_calls_witness :
    countOut.1.differential_diagnosis.length + hypoCalls countEnv =
      hypoCalls countOut.2 :=
  run_differential_counts_hypo_calls 50 "Male" countEnv countOut.1
    countOut.2 (by decide)

end Medagent

/-!
Sanity checks of the Python string model against the semantics of
`str.split`, `str.strip`, `str.lower` and `int`.
-/

example : Medagent.pySplitGet1 "bc" "abcbc" = "" := by decide
example : Medagent.pySplitGet1 "EMERGENCY_ABORT:"
    "EMERGENCY_ABORT: crushing chest pain" = " crushing chest pain" := by decide
example : Medagent.pyStrip " crushing chest pain " = "crushing chest pain" := by decide
example : Medagent.containsSub "ORDER_LAB:" "say ORDER_LAB: Troponin" = true := by decide
example : Medagent.containsSub "ORDER_LAB:" "say ORDER_IMAGING: CT" = false := by decide
example : Medagent.pyInt " 42 " = some 42 := by decide
example : Medagent.pyInt "-7" = some (-7) := by decide
example : Medagent.pyInt "4a" = none := by decide
example : Medagent.pyInt "" = none := by decide
example : Medagent.pyLower " M " = " m " := by decide
